import Mathlib

/-!
# Practice-tracker recurrence/completion engine: a shallow embedding

This file embeds the recurrence-expansion and completion-tracking core of
the practice-tracker backend (`backend/main.py` together with the
SQLAlchemy models of `backend/database.py`) as executable Lean
definitions, and proves the spec's testable properties about them.

Modelling conventions:
* A calendar date is an integer day number (days since an arbitrary
  epoch); `timedelta(days = n)` is integer addition.  In the concrete
  examples below, day `19723` stands for 2024-01-01, `19724` for
  2024-01-02 and `19725` for 2024-01-03 (days since 1970-01-01).
* A `datetime` value is a day number paired with a time-of-day tag
  (`DateTime.day`, `DateTime.tod`); `datetime.combine(d, t)` is `⟨d, t⟩`
  and `.date()` is the `day` projection.
* The database session is an explicit `Store` value holding the four
  relevant tables as lists; SQLAlchemy `query ... first()` is
  `List.find?`, row mutation is a positional update of the list, and
  committed inserts are list appends.
* `generate_uuid()` draws fresh opaque ids; they are passed in as
  explicit arguments (`newId : String`, or `ids : Nat → String` indexed
  by loop iteration) since their values never matter.
* `date.today()` and `datetime.utcnow()` are passed in explicitly
  (`today : Int`, `now : DateTime`).
* The `while current_date <= end_date` loop of
  `generate_task_occurrences` need not terminate (nothing validates the
  frequency value), so its date progression is embedded fuel-indexed:
  `none` means the loop is still running when the fuel runs out, for
  every fuel — i.e. the source loop diverges.
* Python floats are embedded as exact rationals, with `round(x, 2)`
  embedded as round-half-to-even at two decimal places.
-/

/-- A `datetime` value: calendar day number plus an opaque time-of-day tag. -/
structure DateTime where
  day : Int
  tod : Nat
deriving DecidableEq

/-- `Instrument` row (only the key is relevant to the claims). -/
structure Instrument where
  id : String
deriving DecidableEq

/-- `TaskDefinition` row (database.py `TaskDefinitions` table). -/
structure TaskDef where
  id : String
  instrument_id : String
  task_type : String
  frequency_type : String
  frequency_value : Int
  start_date : Int
deriving DecidableEq

/-- `TaskOccurrence` row (database.py `TaskOccurrences` table). -/
structure Occurrence where
  id : String
  task_definition_id : String
  instrument_id : String
  due_date : Int
  task_type : String
  completed : Bool
  completed_at : Option DateTime
  notes : Option String
  photo_url : Option String
deriving DecidableEq

/-- `TaskCompletion` row (database.py `TaskCompletions` table, the
append-only audit trail; `completed_at` is `nullable=False` there, so it
is not an `Option` here and the python-side null guard in
`get_completion_streak` is vacuous). -/
structure CompletionRec where
  id : String
  task_occurrence_id : String
  instrument_id : String
  task_type : String
  completed_at : DateTime
  notes : Option String
  photo_url : Option String
deriving DecidableEq

/-- `PracticeSession` row (database.py `PracticeSession` table; the
legacy `/api/tasks` endpoints, reschedule included, operate on it). -/
structure PracticeSession where
  id : String
  instrument_id : String
  practice_session_definition_id : String
  start_time : Option DateTime
  end_time : Option DateTime
  duration : Option Int
  completed : Bool
  completed_at : Option DateTime
  notes : Option String
  photo_url : Option String
  updated_at : DateTime
deriving DecidableEq

/-- The relevant tables of the SQLite store, as an explicit state value. -/
structure Store where
  instruments : List Instrument
  task_definitions : List TaskDef
  task_occurrences : List Occurrence
  task_completions : List CompletionRec
  practice_sessions : List PracticeSession
deriving DecidableEq

/-- The `HTTPException`s the embedded handlers raise (404 / 400), plus
`internal` for an uncaught exception (500). -/
inductive ApiError where
  | notFound (detail : String)
  | invalidDate (detail : String)
  | internal
deriving DecidableEq

/-- The `due_date` field of the reschedule request body, after the
`new_date.get('due_date')` / `date.fromisoformat` steps: the key can be
missing, hold an unparseable string, or parse to a date. -/
inductive DateField where
  | missing
  | unparseable (s : String)
  | parsed (d : Int)
deriving DecidableEq

/-- Step the `generate_task_occurrences` loop adds to `current_date`:
`days` adds `frequency_value` days, `weekly` adds `frequency_value`
weeks, `monthly` adds `30 * frequency_value` days; any other tag leaves
`current_date` unchanged (no branch fires), i.e. step `0`. -/
def freqStep (frequency_type : String) (frequency_value : Int) : Int :=
  if frequency_type = "days" then frequency_value
  else if frequency_type = "weekly" then 7 * frequency_value
  else if frequency_type = "monthly" then 30 * frequency_value
  else 0

/-- The date progression of the `while current_date <= end_date` loop of
`generate_task_occurrences`, fuel-indexed: each unit of fuel allows one
iteration; `none` means the fuel ran out with the guard still true (so
the source loop is still running — if this holds for every fuel the
source loop diverges). -/
def genDueDatesFuel (step : Int) : Nat → Int → Int → Option (List Int)
  | 0, cur, endD => if cur ≤ endD then none else some []
  | fuel + 1, cur, endD =>
      if cur ≤ endD then
        match genDueDatesFuel step fuel (cur + step) endD with
        | some rest => some (cur :: rest)
        | none => none
      else some []

/-- The `DBTaskOccurrence(...)` record built for each loop iteration of
`generate_task_occurrences`, one per due date, with the iteration index
selecting the fresh uuid. -/
def occurrencesFromDates (td : TaskDef) (ids : Nat → String) : Nat → List Int → List Occurrence
  | _, [] => []
  | k, d :: rest =>
      { id := ids k
        task_definition_id := td.id
        instrument_id := td.instrument_id
        due_date := d
        task_type := td.task_type
        completed := false
        completed_at := none
        notes := none
        photo_url := none } :: occurrencesFromDates td ids (k + 1) rest

/-- main.py `generate_task_occurrences`: run the date loop, build one
occurrence per due date, bulk-insert them (`db.add_all` + `commit`) and
return them.  `none` means the loop has not finished within `fuel`
iterations. -/
def generate_task_occurrences (td : TaskDef) (ids : Nat → String) (endD : Int)
    (fuel : Nat) (db : Store) : Option (List Occurrence × Store) :=
  match genDueDatesFuel (freqStep td.frequency_type td.frequency_value) fuel td.start_date endD with
  | none => none
  | some dates =>
      let occs := occurrencesFromDates td ids 0 dates
      some (occs, { db with task_occurrences := db.task_occurrences ++ occs })

/-- Default generation horizon of `generate_task_occurrences` when the
caller passes no `end_date`: `date.today() + timedelta(days=90)`. -/
def default_horizon (today : Int) : Int := today + 90

/-- Request body of `POST /api/task-definitions`.  `frequency_type` is
constrained by the `FrequencyType` enum to `days`/`weekly`/`monthly`;
`frequency_value` is a plain `int` with no positivity validation. -/
structure CreatePayload where
  instrument_id : String
  task_type : String
  frequency_type : String
  frequency_value : Int
  start_date : Int
deriving DecidableEq

/-- main.py `create_task_definition`: 404 if the instrument is missing,
otherwise insert the definition row, then generate occurrences up to
`today + 90`.  The outer `Option` is the fuel-indexed termination of the
generation loop; no branch validates `frequency_value`. -/
def create_task_definition (p : CreatePayload) (defId : String) (ids : Nat → String)
    (today : Int) (fuel : Nat) (db : Store) : Option (Except ApiError (TaskDef × Store)) :=
  match db.instruments.find? (fun i => i.id == p.instrument_id) with
  | none => some (Except.error (ApiError.notFound "Instrument not found"))
  | some _ =>
      let newDef : TaskDef :=
        { id := defId
          instrument_id := p.instrument_id
          task_type := p.task_type
          frequency_type := p.frequency_type
          frequency_value := p.frequency_value
          start_date := p.start_date }
      let db1 := { db with task_definitions := db.task_definitions ++ [newDef] }
      match generate_task_occurrences newDef ids (default_horizon today) fuel db1 with
      | none => none
      | some r => some (Except.ok (newDef, r.2))

/-- main.py `delete_task_definition`: 404 if the definition row is
missing; otherwise SQLAlchemy's `cascade="all, delete-orphan"` on
`TaskDefinition.task_occurrences` issues DELETEs for the cascaded
occurrence rows before the definition row.  database.py runs
`PRAGMA foreign_keys=ON` on every connection, and
`TaskCompletions.task_occurrence_id` is a foreign key into
`TaskOccurrences.id` with no ON DELETE action and no ORM relationship,
so SQLite rejects (NO ACTION, checked immediately) the DELETE of any
occurrence a completion row still references: the commit raises
`IntegrityError`, the handler does not catch it (500), and the
transaction is rolled back — nothing is deleted.  Only when no
completion references any cascaded occurrence does the delete go
through, removing the definition and its occurrences and touching no
completion row.  An `Except.error` result therefore carries no store:
the state is unchanged. -/
def delete_task_definition (task_def_id : String) (db : Store) :
    Except ApiError (String × Store) :=
  match db.task_definitions.find? (fun d => d.id == task_def_id) with
  | none => Except.error (ApiError.notFound "Task definition not found")
  | some _ =>
      if db.task_occurrences.any (fun o => o.task_definition_id == task_def_id &&
           db.task_completions.any (fun c => c.task_occurrence_id == o.id)) then
        Except.error ApiError.internal
      else
        Except.ok (task_def_id,
          { db with
            task_definitions := db.task_definitions.filter (fun d => !(d.id == task_def_id))
            task_occurrences := db.task_occurrences.filter (fun o => !(o.task_definition_id == task_def_id)) })

/-- The field update `complete_task` applies to the fetched occurrence
row: `completed = True`, `completed_at = now`, and the request's
notes/photo overwrite whatever was there. -/
def applyCompletion (now : DateTime) (cnotes cphoto : Option String) (t : Occurrence) : Occurrence :=
  { t with completed := true, completed_at := some now, notes := cnotes, photo_url := cphoto }

/-- main.py `complete_task` (`POST /api/tasks/{id}/complete`): 404 if the
occurrence is missing; otherwise overwrite its completion fields and
append one fresh `TaskCompletion` audit row carrying the same values. -/
def complete_task (task_id : String) (cnotes cphoto : Option String) (newId : String)
    (now : DateTime) (db : Store) : Except ApiError (Occurrence × Store) :=
  match db.task_occurrences.find? (fun t => t.id == task_id) with
  | none => Except.error (ApiError.notFound "Task not found")
  | some task =>
      let task1 := applyCompletion now cnotes cphoto task
      let crec : CompletionRec :=
        { id := newId
          task_occurrence_id := task_id
          instrument_id := task.instrument_id
          task_type := task.task_type
          completed_at := now
          notes := cnotes
          photo_url := cphoto }
      Except.ok (task1,
        { db with
          task_occurrences := db.task_occurrences.map (fun t => if t.id == task_id then task1 else t)
          task_completions := db.task_completions ++ [crec] })

/-- The selection filter of `complete_all_tasks_for_instrument`: same
instrument, `due_date <= today`, not yet completed. -/
def dueAndPending (instrument_id : String) (today : Int) (t : Occurrence) : Bool :=
  t.instrument_id == instrument_id && decide (t.due_date ≤ today) && t.completed == false

/-- The batch variant of the completion update: only `completed` and
`completed_at` are written (notes/photo are left as they were). -/
def applyBatchCompletion (now : DateTime) (t : Occurrence) : Occurrence :=
  { t with completed := true, completed_at := some now }

/-- The `TaskCompletion` rows `complete_all_tasks_for_instrument` adds:
one per selected occurrence, all sharing the single `now` timestamp,
with the iteration index selecting the fresh uuid. -/
def completionRecsFor (instrument_id : String) (now : DateTime) (ids : Nat → String) :
    Nat → List Occurrence → List CompletionRec
  | _, [] => []
  | k, t :: ts =>
      { id := ids k
        task_occurrence_id := t.id
        instrument_id := instrument_id
        task_type := t.task_type
        completed_at := now
        notes := none
        photo_url := none } :: completionRecsFor instrument_id now ids (k + 1) ts

/-- main.py `complete_all_tasks_for_instrument`
(`POST /api/tasks/instrument/{id}/complete-all`): select every
occurrence of the instrument with `due_date <= today` and
`completed == False`, mark each completed with the one shared `now`,
append one completion row per selected occurrence, and return the count
together with the transitioned occurrences.  No existence check is made
on the instrument id. -/
def complete_all_tasks_for_instrument (instrument_id : String) (today : Int)
    (now : DateTime) (ids : Nat → String) (db : Store) : (Nat × List Occurrence) × Store :=
  let tasks := db.task_occurrences.filter (dueAndPending instrument_id today)
  let completedTasks := tasks.map (applyBatchCompletion now)
  ((completedTasks.length, completedTasks),
   { db with
     task_occurrences :=
       db.task_occurrences.map (fun t => if dueAndPending instrument_id today t then applyBatchCompletion now t else t)
     task_completions := db.task_completions ++ completionRecsFor instrument_id now ids 0 tasks })

/-- Insert a day into a strictly descending list of days, dropping
duplicates — the building block for Python's `sorted(set(...), reverse=True)`. -/
def insertDesc (d : Int) : List Int → List Int
  | [] => [d]
  | x :: xs =>
      if x < d then d :: x :: xs
      else if d = x then x :: xs
      else x :: insertDesc d xs

/-- Python `sorted(set(l), reverse=True)`: the distinct elements of `l`
in strictly descending order. -/
def sortedDedupDesc : List Int → List Int
  | [] => []
  | x :: xs => insertDesc x (sortedDedupDesc xs)

/-- The walk of `get_completion_streak`: over the descending distinct
completion dates, a date matching `expected` or `expected - 1` adds one
to the streak and moves `expected` to the day before the matched date;
the first date that matches neither stops the walk.  Note the
one-day-of-slack comparison runs on every iteration, not only the first. -/
def streakWalk : List Int → Int → Nat → Nat
  | [], _, streak => streak
  | d :: rest, expected, streak =>
      if d = expected ∨ d = expected - 1 then streakWalk rest (d - 1) (streak + 1)
      else streak

/-- main.py `get_completion_streak`: 0 when there are no completion
rows, else walk the distinct completion days (calendar-date part of
`completed_at`) in descending order starting from today. -/
def get_completion_streak (today : Int) (db : Store) : Nat :=
  if db.task_completions.isEmpty then 0
  else
    let completion_dates := sortedDedupDesc (db.task_completions.map (fun c => c.completed_at.day))
    if completion_dates.isEmpty then 0
    else streakWalk completion_dates today 0

/-- Round a rational to the nearest integer, ties to even — the
behaviour of Python `round` on a value held exactly.  Written over the
numerator/denominator so it is pure integer arithmetic: `f` is the
floor, `r2` is twice the remainder, compared against the denominator to
pick floor, ceiling, or the even neighbour on a tie. -/
def roundHalfEven (x : ℚ) : Int :=
  let f := Int.fdiv x.num (x.den : Int)
  let r2 := 2 * (x.num - f * (x.den : Int))
  if r2 < (x.den : Int) then f
  else if (x.den : Int) < r2 then f + 1
  else if f % 2 = 0 then f else f + 1

/-- Python `round(x, 2)` on an exactly-held value. -/
def round2 (x : ℚ) : ℚ := ((roundHalfEven (100 * x) : Int) : ℚ) / 100

/-- Response shape of `GET /api/analytics/completion-rate`. -/
structure RateResult where
  period : String
  completion_rate : ℚ
  total : Nat
  completed : Nat
deriving DecidableEq

/-- main.py `get_completion_rate`: window start is `today - 7` for
`weekly` and `today - 30` for anything else; occurrences are filtered by
`due_date >= start_date` only (no upper bound); the rate is
completed/total × 100 rounded to two decimals, and `0` when no
occurrence matched. -/
def get_completion_rate (period : String) (today : Int) (db : Store) : RateResult :=
  let start_date : Int := if period = "weekly" then today - 7 else today - 30
  let all_tasks := db.task_occurrences.filter (fun t => decide (start_date ≤ t.due_date))
  let completed_tasks := all_tasks.filter (fun t => t.completed)
  let rate : ℚ :=
    if all_tasks.length ≠ 0 then (completed_tasks.length : ℚ) / (all_tasks.length : ℚ) * 100 else 0
  { period := period
    completion_rate := round2 rate
    total := all_tasks.length
    completed := completed_tasks.length }

/-- The session-field update of a successful reschedule: `start_time`
moves to the new day keeping its time of day (midnight when there was
none), the `end_time` day follows when both `end_time` and `duration`
are set, and `updated_at` is refreshed. -/
def rescheduledSession (newDue : Int) (now : DateTime) (s : PracticeSession) : PracticeSession :=
  let s1 :=
    match s.start_time with
    | some oldStart =>
        let s2 := { s with start_time := some ⟨newDue, oldStart.tod⟩ }
        match s.end_time, s.duration with
        | some oldEnd, some _ => { s2 with end_time := some ⟨newDue, oldEnd.tod⟩ }
        | _, _ => s2
    | none => { s with start_time := some ⟨newDue, 0⟩ }
  { s1 with updated_at := now }

/-- main.py `reschedule_task` (`PUT /api/tasks/{id}/reschedule`, which
operates on the `PracticeSession` table): 404 if the session is
missing; an unparseable `due_date` string raises `ValueError`, caught
into a 400; a missing `due_date` key makes `date.fromisoformat(None)`
raise `TypeError`, which the `except (ValueError, KeyError)` clause does
not catch (a 500).  On success the session fields move per
`rescheduledSession`. -/
def reschedule_task (task_id : String) (due_date_field : DateField) (now : DateTime)
    (db : Store) : Except ApiError (PracticeSession × Store) :=
  match db.practice_sessions.find? (fun s => s.id == task_id) with
  | none => Except.error (ApiError.notFound "Practice session not found")
  | some s =>
      match due_date_field with
      | DateField.missing => Except.error ApiError.internal
      | DateField.unparseable str =>
          Except.error (ApiError.invalidDate ("Invalid date format: " ++ str))
      | DateField.parsed newDue =>
          let s3 := rescheduledSession newDue now s
          Except.ok (s3,
            { db with practice_sessions := db.practice_sessions.map (fun x => if x.id == task_id then s3 else x) })

/-- The `due_date` field the legacy `GET /api/tasks` listing reports for
a practice session: the calendar-date part of `start_time`. -/
def taskViewDueDate (s : PracticeSession) : Option Int :=
  s.start_time.map (fun st => st.day)

/-- The empty store, for concrete instantiations. -/
def emptyStore : Store := ⟨[], [], [], [], []⟩

/-- Closed form of the due-date loop for a positive step: the arithmetic
progression from `cur` with the given step, truncated at `endD`
inclusive; empty when the horizon precedes the start. -/
def dueClosed (step cur endD : Int) : List Int :=
  if cur ≤ endD then
    (List.range ((endD - cur).toNat / step.toNat + 1)).map (fun i : Nat => cur + (i : Int) * step)
  else []

lemma genDueDatesFuel_empty (step : Int) (fuel : Nat) (cur endD : Int) (h : endD < cur) :
    genDueDatesFuel step fuel cur endD = some [] := by
  cases fuel <;> simp [genDueDatesFuel, not_le.mpr h]

lemma genDueDatesFuel_none_of_nonpos (step : Int) (hstep : step ≤ 0) :
    ∀ (fuel : Nat) (cur endD : Int), cur ≤ endD → genDueDatesFuel step fuel cur endD = none := by
  intro fuel
  induction fuel with
  | zero => intro cur endD h; simp [genDueDatesFuel, h]
  | succ fuel ih =>
      intro cur endD h
      have h2 : cur + step ≤ endD := by omega
      simp [genDueDatesFuel, h, ih (cur + step) endD h2]

lemma dueClosed_cons (step cur endD : Int) (hstep : 1 ≤ step) (h2 : cur + step ≤ endD) :
    dueClosed step cur endD = cur :: dueClosed step (cur + step) endD := by
  have hc : cur ≤ endD := by omega
  rw [dueClosed, if_pos hc, dueClosed, if_pos h2]
  have hsp : 0 < step.toNat := by omega
  have hs : step.toNat ≤ (endD - cur).toNat := by omega
  have hsub : (endD - cur).toNat - step.toNat = (endD - (cur + step)).toNat := by omega
  have hdiv : (endD - cur).toNat / step.toNat = (endD - (cur + step)).toNat / step.toNat + 1 := by
    rw [Nat.div_eq_sub_div hsp hs, hsub]
  rw [hdiv, List.range_succ_eq_map, List.map_cons, List.map_map]
  congr 1
  · simp
  · apply List.map_congr_left
    intro i _
    simp only [Function.comp_apply]
    push_cast
    ring

lemma dueClosed_singleton (step cur endD : Int) (hstep : 1 ≤ step)
    (hc : cur ≤ endD) (h2 : endD < cur + step) :
    dueClosed step cur endD = [cur] := by
  rw [dueClosed, if_pos hc]
  have hlt : (endD - cur).toNat < step.toNat := by omega
  rw [Nat.div_eq_of_lt hlt]
  rw [show List.range 1 = [0] from rfl]
  simp

lemma genDueDatesFuel_eq_closed (step : Int) (hstep : 1 ≤ step) :
    ∀ (fuel : Nat) (cur endD : Int), (endD - cur).toNat < fuel →
      genDueDatesFuel step fuel cur endD = some (dueClosed step cur endD) := by
  intro fuel
  induction fuel with
  | zero => intro cur endD h; omega
  | succ fuel ih =>
      intro cur endD h
      by_cases hc : cur ≤ endD
      · by_cases h2 : cur + step ≤ endD
        · have hrec : (endD - (cur + step)).toNat < fuel := by omega
          simp [genDueDatesFuel, hc, ih (cur + step) endD hrec, dueClosed_cons step cur endD hstep h2]
        · have hrec : genDueDatesFuel step fuel (cur + step) endD =
              some [] := genDueDatesFuel_empty step fuel (cur + step) endD (by omega)
          simp [genDueDatesFuel, hc, hrec,
            dueClosed_singleton step cur endD hstep hc (by omega)]
      · simp [genDueDatesFuel, hc, dueClosed, hc]

lemma dueClosed_length (step cur endD : Int) (hc : cur ≤ endD) :
    (dueClosed step cur endD).length = (endD - cur).toNat / step.toNat + 1 := by
  simp [dueClosed, hc]

lemma dueClosed_head? (step cur endD : Int) (hc : cur ≤ endD) :
    (dueClosed step cur endD).head? = some cur := by
  rw [dueClosed, if_pos hc, List.range_succ_eq_map, List.map_cons]
  simp

lemma dueClosed_getElem? (step cur endD : Int) (hc : cur ≤ endD) (i : Nat)
    (hi : i < (endD - cur).toNat / step.toNat + 1) :
    (dueClosed step cur endD)[i]? = some (cur + (i : Int) * step) := by
  rw [dueClosed, if_pos hc, List.getElem?_map, List.getElem?_range hi]
  rfl

lemma dueClosed_chain (step cur endD : Int) (hstep : 1 ≤ step) :
    List.Chain' (· < ·) (dueClosed step cur endD) := by
  by_cases hc : cur ≤ endD
  · rw [dueClosed, if_pos hc]
    rw [List.chain'_map]
    cases h : (endD - cur).toNat / step.toNat + 1 with
    | zero => simp at h
    | succ n =>
        rw [List.chain'_range_succ]
        intro m _
        push_cast
        nlinarith
  · rw [dueClosed, if_neg hc]
    exact List.chain'_nil

lemma occurrencesFromDates_map_due (td : TaskDef) (ids : Nat → String) :
    ∀ (k : Nat) (dates : List Int),
      (occurrencesFromDates td ids k dates).map (fun o => o.due_date) = dates := by
  intro k dates
  induction dates generalizing k with
  | nil => rfl
  | cons d rest ih => simp [occurrencesFromDates, ih]

lemma occurrencesFromDates_length (td : TaskDef) (ids : Nat → String) :
    ∀ (k : Nat) (dates : List Int),
      (occurrencesFromDates td ids k dates).length = dates.length := by
  intro k dates
  induction dates generalizing k with
  | nil => rfl
  | cons d rest ih => simp [occurrencesFromDates, ih]

lemma freqStep_days (n : Int) : freqStep "days" n = n := rfl

lemma freqStep_weekly (n : Int) : freqStep "weekly" n = 7 * n := rfl

lemma freqStep_monthly (n : Int) : freqStep "monthly" n = 30 * n := rfl

lemma freqStep_pos (ft : String) (n : Int) (hn : 1 ≤ n)
    (hft : ft = "days" ∨ ft = "weekly" ∨ ft = "monthly") : 1 ≤ freqStep ft n := by
  rcases hft with h | h | h <;> subst h
  · rw [freqStep_days]; omega
  · rw [freqStep_weekly]; omega
  · rw [freqStep_monthly]; omega

/-- **C1.** For every task definition with frequency value N ≥ 1 over
the `days`/`weekly`/`monthly` frequency tags, every start date S and
every horizon H, occurrence generation terminates, the step is exactly
N days for `days`, N×7 days for `weekly` and N×30 days for `monthly`,
and when H ≥ S the due-date sequence has length ⌊(H − S)/step⌋ + 1,
first element S, consecutive elements exactly `step` apart, and is
strictly increasing; when H < S the sequence is empty. -/
theorem occurrence_generation_due_date_sequence (td : TaskDef) (ids : Nat → String)
    (H : Int) (db : Store)
    (hn : 1 ≤ td.frequency_value)
    (hft : td.frequency_type = "days" ∨ td.frequency_type = "weekly" ∨ td.frequency_type = "monthly") :
    ∃ fuel occs db1,
      generate_task_occurrences td ids H fuel db = some (occs, db1) ∧
      (td.frequency_type = "days" →
        freqStep td.frequency_type td.frequency_value = td.frequency_value) ∧
      (td.frequency_type = "weekly" →
        freqStep td.frequency_type td.frequency_value = 7 * td.frequency_value) ∧
      (td.frequency_type = "monthly" →
        freqStep td.frequency_type td.frequency_value = 30 * td.frequency_value) ∧
      (td.start_date ≤ H →
        occs.length =
          (H - td.start_date).toNat / (freqStep td.frequency_type td.frequency_value).toNat + 1 ∧
        (occs.map (fun o => o.due_date)).head? = some td.start_date ∧
        (∀ i : Nat, i + 1 < occs.length →
          (occs.map (fun o => o.due_date))[i + 1]? =
            ((occs.map (fun o => o.due_date))[i]?).map
              (fun d => d + freqStep td.frequency_type td.frequency_value)) ∧
        List.Chain' (· < ·) (occs.map (fun o => o.due_date))) ∧
      (H < td.start_date → occs = []) := by
  have hstep : 1 ≤ freqStep td.frequency_type td.frequency_value :=
    freqStep_pos _ _ hn hft
  have hgen : genDueDatesFuel (freqStep td.frequency_type td.frequency_value)
      ((H - td.start_date).toNat + 1) td.start_date H =
      some (dueClosed (freqStep td.frequency_type td.frequency_value) td.start_date H) :=
    genDueDatesFuel_eq_closed _ hstep _ _ _ (by omega)
  refine ⟨(H - td.start_date).toNat + 1,
    occurrencesFromDates td ids 0
      (dueClosed (freqStep td.frequency_type td.frequency_value) td.start_date H),
    { db with task_occurrences := (db.task_occurrences ++ occurrencesFromDates td ids 0 (dueClosed (freqStep td.frequency_type td.frequency_value) td.start_date H)) },
    ?_, ?_, ?_, ?_, ?_, ?_⟩
  · unfold generate_task_occurrences
    rw [hgen]
  · intro h; rw [h, freqStep_days]
  · intro h; rw [h, freqStep_weekly]
  · intro h; rw [h, freqStep_monthly]
  · intro hSH
    refine ⟨?_, ?_, ?_, ?_⟩
    · rw [occurrencesFromDates_length, dueClosed_length _ _ _ hSH]
    · rw [occurrencesFromDates_map_due, dueClosed_head? _ _ _ hSH]
    · intro i hi
      rw [occurrencesFromDates_length, dueClosed_length _ _ _ hSH] at hi
      rw [occurrencesFromDates_map_due,
        dueClosed_getElem? _ _ _ hSH (i + 1) hi,
        dueClosed_getElem? _ _ _ hSH i (by omega)]
      simp only [Option.map_some']
      congr 1
      push_cast
      ring
    · rw [occurrencesFromDates_map_due]
      exact dueClosed_chain _ _ _ hstep
  · intro hHS
    rw [dueClosed, if_neg (by omega)]
    rfl

/-- Task definition used to instantiate C1/C3: practice every 2 days
from day 0. -/
def c1Def : TaskDef :=
  { id := "d1", instrument_id := "i1", task_type := "Practice"
    frequency_type := "days", frequency_value := 2, start_date := 0 }

/-- Witness for C1: the theorem applied at `c1Def` with horizon 5. -/
theorem occurrence_generation_due_date_sequence_witness :
    ((1 ≤ c1Def.frequency_value) ∧
      (c1Def.frequency_type = "days" ∨ c1Def.frequency_type = "weekly" ∨
        c1Def.frequency_type = "monthly")) ∧
    (∃ fuel occs db1,
      generate_task_occurrences c1Def (fun _ => "o") 5 fuel emptyStore = some (occs, db1) ∧
      (c1Def.frequency_type = "days" →
        freqStep c1Def.frequency_type c1Def.frequency_value = c1Def.frequency_value) ∧
      (c1Def.frequency_type = "weekly" →
        freqStep c1Def.frequency_type c1Def.frequency_value = 7 * c1Def.frequency_value) ∧
      (c1Def.frequency_type = "monthly" →
        freqStep c1Def.frequency_type c1Def.frequency_value = 30 * c1Def.frequency_value) ∧
      (c1Def.start_date ≤ 5 →
        occs.length =
          ((5 : Int) - c1Def.start_date).toNat /
            (freqStep c1Def.frequency_type c1Def.frequency_value).toNat + 1 ∧
        (occs.map (fun o => o.due_date)).head? = some c1Def.start_date ∧
        (∀ i : Nat, i + 1 < occs.length →
          (occs.map (fun o => o.due_date))[i + 1]? =
            ((occs.map (fun o => o.due_date))[i]?).map
              (fun d => d + freqStep c1Def.frequency_type c1Def.frequency_value)) ∧
        List.Chain' (· < ·) (occs.map (fun o => o.due_date))) ∧
      ((5 : Int) < c1Def.start_date → occs = [])) :=
  ⟨⟨by decide, Or.inl rfl⟩,
    occurrence_generation_due_date_sequence c1Def (fun _ => "o") 5 emptyStore
      (by decide) (Or.inl rfl)⟩

/-- Create request with a non-positive frequency (N = −1), aimed at an
existing instrument. -/
def c2Payload : CreatePayload :=
  { instrument_id := "i1", task_type := "Practice", frequency_type := "days"
    frequency_value := -1, start_date := 0 }

/-- Store holding just the instrument `c2Payload` refers to. -/
def c2Store : Store := ⟨[⟨"i1"⟩], [], [], [], []⟩

/-- **C2 (code bug).** Nothing in `create_task_definition` or
`generate_task_occurrences` validates `frequency_value`: with N = −1
(and the default 90-day horizon ahead of the start date) the generation
loop's guard stays true forever, so the request never completes for any
number of loop iterations — no `InvalidFrequency` error is ever
produced (none exists in the code), and the handler never returns. -/
theorem create_task_definition_hangs_on_nonpositive_frequency :
    ∀ fuel : Nat, create_task_definition c2Payload "d1" (fun _ => "o") 0 fuel c2Store = none := by
  intro fuel
  have hnone : genDueDatesFuel (freqStep "days" (-1)) fuel 0 90 = none :=
    genDueDatesFuel_none_of_nonpos _ (by decide) fuel 0 90 (by decide)
  simp [create_task_definition, c2Payload, c2Store, generate_task_occurrences,
    default_horizon, hnone]

/-- Task definition with frequency value 0 (`every 0 days`). -/
def zeroFreqDef : TaskDef :=
  { id := "d0", instrument_id := "i0", task_type := "Practice"
    frequency_type := "days", frequency_value := 0, start_date := 0 }

/-- **C3 counterexample.** With frequency value 0 and horizon equal to
the start date, the generation loop never terminates: there is no
number of iterations after which `generate_task_occurrences` has
finished. -/
theorem generation_loop_diverges_on_zero_frequency :
    ¬ ∃ fuel r, generate_task_occurrences zeroFreqDef (fun _ => "o") 0 fuel emptyStore = some r := by
  rintro ⟨fuel, r, h⟩
  have hnone : genDueDatesFuel (freqStep "days" 0) fuel 0 0 = none :=
    genDueDatesFuel_none_of_nonpos _ (by decide) fuel 0 0 (by decide)
  simp [generate_task_occurrences, zeroFreqDef, hnone] at h

/-- **C3 (amended).** For every task definition whose frequency type is
one of `days`/`weekly`/`monthly` and whose frequency value is at least
1, and every horizon, the generation loop terminates with a finite
occurrence set (bounded by ⌊(H − S)/step⌋ + 1 rows). -/
theorem generation_terminates_for_positive_frequency (td : TaskDef) (ids : Nat → String)
    (H : Int) (db : Store) (hn : 1 ≤ td.frequency_value)
    (hft : td.frequency_type = "days" ∨ td.frequency_type = "weekly" ∨ td.frequency_type = "monthly") :
    ∃ fuel occs db1,
      generate_task_occurrences td ids H fuel db = some (occs, db1) ∧
      occs.length ≤
        (H - td.start_date).toNat / (freqStep td.frequency_type td.frequency_value).toNat + 1 := by
  have hstep : 1 ≤ freqStep td.frequency_type td.frequency_value :=
    freqStep_pos _ _ hn hft
  have hgen : genDueDatesFuel (freqStep td.frequency_type td.frequency_value)
      ((H - td.start_date).toNat + 1) td.start_date H =
      some (dueClosed (freqStep td.frequency_type td.frequency_value) td.start_date H) :=
    genDueDatesFuel_eq_closed _ hstep _ _ _ (by omega)
  refine ⟨(H - td.start_date).toNat + 1,
    occurrencesFromDates td ids 0
      (dueClosed (freqStep td.frequency_type td.frequency_value) td.start_date H),
    { db with task_occurrences := (db.task_occurrences ++ occurrencesFromDates td ids 0 (dueClosed (freqStep td.frequency_type td.frequency_value) td.start_date H)) },
    ?_, ?_⟩
  · unfold generate_task_occurrences
    rw [hgen]
  · rw [occurrencesFromDates_length]
    by_cases hc : td.start_date ≤ H
    · rw [dueClosed_length _ _ _ hc]
    · rw [dueClosed, if_neg hc]
      simp

/-- Witness for the amended C3: the theorem applied at `c1Def`
(frequency `days`, N = 2) with horizon 5. -/
theorem generation_terminates_for_positive_frequency_witness :
    ((1 ≤ c1Def.frequency_value) ∧
      (c1Def.frequency_type = "days" ∨ c1Def.frequency_type = "weekly" ∨
        c1Def.frequency_type = "monthly")) ∧
    (∃ fuel occs db1,
      generate_task_occurrences c1Def (fun _ => "w") 5 fuel emptyStore = some (occs, db1) ∧
      occs.length ≤
        ((5 : Int) - c1Def.start_date).toNat /
          (freqStep c1Def.frequency_type c1Def.frequency_value).toNat + 1) :=
  ⟨⟨by decide, Or.inl rfl⟩,
    generation_terminates_for_positive_frequency c1Def (fun _ => "w") 5 emptyStore
      (by decide) (Or.inl rfl)⟩

/-- The streak walk of the amended claim, written from its wording: over
the distinct completion days in descending order, each visited date may
match `expected` or `expected - 1` (one-day gaps are tolerated at every
step, not only the first); a match counts one day and moves `expected`
to the day before the matched date; the first non-match ends the
streak. -/
def tolerantStreakSpec : List Int → Int → Nat
  | [], _ => 0
  | d :: rest, expected =>
      if d = expected ∨ d = expected - 1 then tolerantStreakSpec rest (d - 1) + 1
      else 0

lemma streakWalk_eq_tolerant (l : List Int) :
    ∀ (expected : Int) (s : Nat), streakWalk l expected s = tolerantStreakSpec l expected + s := by
  induction l with
  | nil => intro e s; simp [streakWalk, tolerantStreakSpec]
  | cons d rest ih =>
      intro e s
      by_cases h : d = e ∨ d = e - 1
      · simp only [streakWalk, tolerantStreakSpec, if_pos h, ih]
        omega
      · simp only [streakWalk, tolerantStreakSpec, if_neg h]
        omega

lemma insertDesc_mem (d x : Int) (l : List Int) :
    x ∈ insertDesc d l ↔ x = d ∨ x ∈ l := by
  induction l with
  | nil => simp [insertDesc]
  | cons y ys ih =>
      by_cases h1 : y < d
      · simp [insertDesc, h1]
      · by_cases h2 : d = y
        · subst h2
          simp [insertDesc, h1]
        · simp [insertDesc, h1, h2, ih]
          tauto

lemma insertDesc_pairwise (d : Int) (l : List Int)
    (h : List.Pairwise (· > ·) l) : List.Pairwise (· > ·) (insertDesc d l) := by
  induction l with
  | nil => simp [insertDesc]
  | cons y ys ih =>
      rw [List.pairwise_cons] at h
      by_cases h1 : y < d
      · rw [insertDesc, if_pos h1, List.pairwise_cons]
        refine ⟨?_, List.pairwise_cons.mpr h⟩
        intro z hz
        rcases List.mem_cons.mp hz with hz | hz
        · omega
        · have := h.1 z hz
          omega
      · by_cases h2 : d = y
        · rw [insertDesc, if_neg h1, if_pos h2]
          exact List.pairwise_cons.mpr h
        · rw [insertDesc, if_neg h1, if_neg h2, List.pairwise_cons]
          refine ⟨?_, ih h.2⟩
          intro z hz
          rcases (insertDesc_mem d z ys).mp hz with hz | hz
          · omega
          · exact h.1 z hz

lemma sortedDedupDesc_mem (x : Int) (l : List Int) :
    x ∈ sortedDedupDesc l ↔ x ∈ l := by
  induction l with
  | nil => simp [sortedDedupDesc]
  | cons y ys ih => simp [sortedDedupDesc, insertDesc_mem, ih]

lemma sortedDedupDesc_pairwise (l : List Int) :
    List.Pairwise (· > ·) (sortedDedupDesc l) := by
  induction l with
  | nil => simp [sortedDedupDesc]
  | cons y ys ih => exact insertDesc_pairwise y (sortedDedupDesc ys) ih

/-- Store with completions on 2024-01-03 (day 19725) and 2024-01-01
(day 19723): a one-day gap below the most recent completion day. -/
def streakGapStore : Store :=
  ⟨[], [], [],
   [⟨"c1", "o1", "i1", "Practice", ⟨19725, 0⟩, none, none⟩,
    ⟨"c2", "o2", "i1", "Practice", ⟨19723, 0⟩, none, none⟩], []⟩

/-- Store with completions on 2024-01-03 (day 19725) and 2024-01-02
(day 19724): two consecutive completion days. -/
def streakPairStore : Store :=
  ⟨[], [], [],
   [⟨"c1", "o1", "i1", "Practice", ⟨19725, 0⟩, none, none⟩,
    ⟨"c2", "o2", "i1", "Practice", ⟨19724, 0⟩, none, none⟩], []⟩

/-- **C4 counterexample.** With completions on 2024-01-03 and 2024-01-01
and today = 2024-01-03, the claim says the streak is 1 (strict
consecutiveness after the first match); the code's walk compares against
`expected` or `expected - 1` on every iteration, so the gap day is
tolerated and the streak comes out as 2. -/
theorem completion_streak_gap_counterexample :
    get_completion_streak 19725 streakGapStore ≠ 1 ∧
    get_completion_streak 19725 streakGapStore = 2 := by
  constructor
  · decide
  · decide

/-- **C4 (amended).** The completion streak equals the tolerant walk —
over the distinct calendar dates of the completions' `completed_at`,
sorted descending, starting from `expected = today`, where EVERY step
(not only the first) may match `expected` or `expected - 1`, a match
moving `expected` to the day before the matched date, and the first
non-match stopping the walk; the date list walked is exactly the
distinct completion days in strictly descending order, and the streak
is 0 when no completions exist.  (With completions on 2024-01-03 and
2024-01-02 and today = 2024-01-03 this gives 2, and with completions on
2024-01-03 and 2024-01-01 it also gives 2.) -/
theorem completion_streak_tolerant_walk (today : Int) (db : Store) :
    get_completion_streak today db =
      tolerantStreakSpec
        (sortedDedupDesc (db.task_completions.map (fun c => c.completed_at.day))) today ∧
    List.Pairwise (· > ·)
      (sortedDedupDesc (db.task_completions.map (fun c => c.completed_at.day))) ∧
    (∀ x, x ∈ sortedDedupDesc (db.task_completions.map (fun c => c.completed_at.day)) ↔
      x ∈ db.task_completions.map (fun c => c.completed_at.day)) ∧
    (db.task_completions = [] → get_completion_streak today db = 0) := by
  refine ⟨?_, sortedDedupDesc_pairwise _, fun x => sortedDedupDesc_mem x _, ?_⟩
  · rw [get_completion_streak]
    by_cases hemp : db.task_completions.isEmpty
    · rw [if_pos hemp]
      rw [List.isEmpty_iff] at hemp
      rw [hemp]
      rfl
    · rw [if_neg hemp]
      by_cases hd : (sortedDedupDesc (db.task_completions.map (fun c => c.completed_at.day))).isEmpty
      · rw [if_pos hd]
        rw [List.isEmpty_iff] at hd
        rw [hd]
        rfl
      · rw [if_neg hd, streakWalk_eq_tolerant, Nat.add_zero]
  · intro h
    rw [get_completion_streak, if_pos (by rw [h]; rfl)]

/-- Witness for the amended C4: the theorem applied at the
two-consecutive-days store, together with the concrete streak values of
the claim's scenarios under the amended semantics. -/
theorem completion_streak_tolerant_walk_witness :
    get_completion_streak 19725 streakPairStore = 2 ∧
    get_completion_streak 19725 streakGapStore = 2 ∧
    get_completion_streak 19725 emptyStore = 0 ∧
    (get_completion_streak 19725 streakPairStore =
      tolerantStreakSpec
        (sortedDedupDesc (streakPairStore.task_completions.map (fun c => c.completed_at.day))) 19725 ∧
    List.Pairwise (· > ·)
      (sortedDedupDesc (streakPairStore.task_completions.map (fun c => c.completed_at.day))) ∧
    (∀ x, x ∈ sortedDedupDesc (streakPairStore.task_completions.map (fun c => c.completed_at.day)) ↔
      x ∈ streakPairStore.task_completions.map (fun c => c.completed_at.day)) ∧
    (streakPairStore.task_completions = [] → get_completion_streak 19725 streakPairStore = 0)) :=
  ⟨by decide, by decide, by decide, completion_streak_tolerant_walk 19725 streakPairStore⟩

lemma find?_map_replace {α : Type} (p : α → Bool) (s1 : α) (hp : p s1 = true) :
    ∀ (l : List α) (s : α), l.find? p = some s →
      (l.map (fun a => if p a then s1 else a)).find? p = some s1 := by
  intro l
  induction l with
  | nil => intro s h; simp [List.find?] at h
  | cons a as ih =>
      intro s h
      by_cases ha : p a = true
      · simp [List.find?, ha, hp]
      · rw [List.find?_cons_of_neg _ (by simp [ha])] at h
        rw [List.map_cons, if_neg (by simp [ha]),
          List.find?_cons_of_neg _ (by simp [ha])]
        exact ih s h

lemma complete_task_found (tid : String) (cnotes cphoto : Option String) (newId : String)
    (now : DateTime) (db : Store) (task : Occurrence)
    (h : db.task_occurrences.find? (fun t => t.id == tid) = some task) :
    complete_task tid cnotes cphoto newId now db =
      Except.ok (applyCompletion now cnotes cphoto task,
        { db with
          task_occurrences := (db.task_occurrences.map (fun t => if t.id == tid then applyCompletion now cnotes cphoto task else t))
          task_completions := (db.task_completions ++ [{ id := newId, task_occurrence_id := tid, instrument_id := task.instrument_id, task_type := task.task_type, completed_at := now, notes := cnotes, photo_url := cphoto }]) }) := by
  unfold complete_task
  rw [h]

lemma complete_task_missing (tid : String) (cnotes cphoto : Option String) (newId : String)
    (now : DateTime) (db : Store)
    (h : db.task_occurrences.find? (fun t => t.id == tid) = none) :
    complete_task tid cnotes cphoto newId now db =
      Except.error (ApiError.notFound "Task not found") := by
  unfold complete_task
  rw [h]

/-- **C5.** Completing an existing occurrence twice re-applies the
completion each time: each call appends one fresh CompletionRecord (two
in total) and overwrites the occurrence's completion fields, so the
stored occurrence's `completed_at` reflects only the latest call;
completing a non-existent occurrence fails with NotFound. -/
theorem complete_twice_two_records_latest_wins (tid : String) (db : Store)
    (n1 p1 n2 p2 : Option String) (id1 id2 : String) (t1 t2 : DateTime) :
    (∀ task, db.task_occurrences.find? (fun t => t.id == tid) = some task →
      ∃ o1 db1 o2 db2,
        complete_task tid n1 p1 id1 t1 db = Except.ok (o1, db1) ∧
        complete_task tid n2 p2 id2 t2 db1 = Except.ok (o2, db2) ∧
        db1.task_completions.length = db.task_completions.length + 1 ∧
        db2.task_completions.length = db.task_completions.length + 2 ∧
        o2.completed_at = some t2 ∧
        (db2.task_occurrences.find? (fun t => t.id == tid)).map (fun t => t.completed_at) =
          some (some t2)) ∧
    (db.task_occurrences.find? (fun t => t.id == tid) = none →
      complete_task tid n1 p1 id1 t1 db = Except.error (ApiError.notFound "Task not found")) := by
  constructor
  · intro task h
    have hptask := List.find?_some h
    have hp1 : ((applyCompletion t1 n1 p1 task).id == tid) = true := hptask
    have hp2 : ((applyCompletion t2 n2 p2 (applyCompletion t1 n1 p1 task)).id == tid) = true :=
      hptask
    have e1 := complete_task_found tid n1 p1 id1 t1 db task h
    have f1 : (db.task_occurrences.map
        (fun t => if t.id == tid then applyCompletion t1 n1 p1 task else t)).find?
          (fun t => t.id == tid) = some (applyCompletion t1 n1 p1 task) :=
      find?_map_replace (fun t => t.id == tid) (applyCompletion t1 n1 p1 task) hp1 _ _ h
    have e2 := complete_task_found tid n2 p2 id2 t2
      { db with
        task_occurrences := (db.task_occurrences.map (fun t => if t.id == tid then applyCompletion t1 n1 p1 task else t))
        task_completions := (db.task_completions ++ [{ id := id1, task_occurrence_id := tid, instrument_id := task.instrument_id, task_type := task.task_type, completed_at := t1, notes := n1, photo_url := p1 }]) }
      (applyCompletion t1 n1 p1 task) f1
    refine ⟨_, _, _, _, e1, e2, ?_, ?_, rfl, ?_⟩
    · simp
    · simp
    · have f2 := find?_map_replace (fun t => t.id == tid)
        (applyCompletion t2 n2 p2 (applyCompletion t1 n1 p1 task)) hp2
        (db.task_occurrences.map
          (fun t => if t.id == tid then applyCompletion t1 n1 p1 task else t))
        (applyCompletion t1 n1 p1 task) f1
      rw [show ({ db with
        task_occurrences := (db.task_occurrences.map (fun t => if t.id == tid then applyCompletion t1 n1 p1 task else t))
        task_completions := (db.task_completions ++ [{ id := id1, task_occurrence_id := tid, instrument_id := task.instrument_id, task_type := task.task_type, completed_at := t1, notes := n1, photo_url := p1 }]) } : Store).task_occurrences =
        (db.task_occurrences.map (fun t => if t.id == tid then applyCompletion t1 n1 p1 task else t)) from rfl]
      rw [f2]
      rfl
  · intro h
    exact complete_task_missing tid n1 p1 id1 t1 db h

/-- Occurrence used by concrete completion scenarios: pending, due day 0. -/
def c5Occ : Occurrence := ⟨"o1", "d1", "i1", 0, "Practice", false, none, none, none⟩

/-- Store holding just `c5Occ`. -/
def c5Store : Store := ⟨[], [], [c5Occ], [], []⟩

/-- Witness for C5: two successive completions of `c5Occ`. -/
theorem complete_twice_two_records_latest_wins_witness :
    (c5Store.task_occurrences.find? (fun t => t.id == "o1") = some c5Occ) ∧
    (∃ o1 db1 o2 db2,
      complete_task "o1" (some "a") none "r1" ⟨19725, 1⟩ c5Store = Except.ok (o1, db1) ∧
      complete_task "o1" (some "b") none "r2" ⟨19725, 2⟩ db1 = Except.ok (o2, db2) ∧
      db1.task_completions.length = c5Store.task_completions.length + 1 ∧
      db2.task_completions.length = c5Store.task_completions.length + 2 ∧
      o2.completed_at = some ⟨19725, 2⟩ ∧
      (db2.task_occurrences.find? (fun t => t.id == "o1")).map (fun t => t.completed_at) =
        some (some ⟨19725, 2⟩)) :=
  ⟨rfl,
    (complete_twice_two_records_latest_wins "o1" c5Store (some "a") none (some "b") none
      "r1" "r2" ⟨19725, 1⟩ ⟨19725, 2⟩).1 c5Occ rfl⟩

lemma completionRecsFor_length (iid : String) (now : DateTime) (ids : Nat → String) :
    ∀ (k : Nat) (ts : List Occurrence),
      (completionRecsFor iid now ids k ts).length = ts.length := by
  intro k ts
  induction ts generalizing k with
  | nil => rfl
  | cons t rest ih => simp [completionRecsFor, ih]

lemma completionRecsFor_map_occ (iid : String) (now : DateTime) (ids : Nat → String) :
    ∀ (k : Nat) (ts : List Occurrence),
      (completionRecsFor iid now ids k ts).map (fun r => r.task_occurrence_id) =
        ts.map (fun t => t.id) := by
  intro k ts
  induction ts generalizing k with
  | nil => rfl
  | cons t rest ih => simp [completionRecsFor, ih]

lemma completionRecsFor_completed_at (iid : String) (now : DateTime) (ids : Nat → String) :
    ∀ (k : Nat) (ts : List Occurrence) (r : CompletionRec),
      r ∈ completionRecsFor iid now ids k ts → r.completed_at = now := by
  intro k ts
  induction ts generalizing k with
  | nil => intro r hr; simp [completionRecsFor] at hr
  | cons t rest ih =>
      intro r hr
      rcases List.mem_cons.mp hr with hr | hr
      · rw [hr]
      · exact ih (k + 1) r hr

/-- **C6.** Batch completion selects exactly the item's occurrences with
`due_date ≤ today` and `completed = false`; every transitioned
occurrence is returned completed with the single shared timestamp; one
new CompletionRecord is appended per transitioned occurrence (same
order, same timestamp); occurrences outside the selection survive
unchanged; and the returned count is the number of selected
occurrences. -/
theorem complete_all_batch_semantics (iid : String) (today : Int) (now : DateTime)
    (ids : Nat → String) (db : Store) :
    (complete_all_tasks_for_instrument iid today now ids db).1.1 =
      db.task_occurrences.countP (dueAndPending iid today) ∧
    (complete_all_tasks_for_instrument iid today now ids db).1.2 =
      (db.task_occurrences.filter (dueAndPending iid today)).map (applyBatchCompletion now) ∧
    (∀ o ∈ (complete_all_tasks_for_instrument iid today now ids db).1.2,
      o.completed = true ∧ o.completed_at = some now) ∧
    (complete_all_tasks_for_instrument iid today now ids db).2.task_completions.length =
      db.task_completions.length +
        (complete_all_tasks_for_instrument iid today now ids db).1.1 ∧
    ((complete_all_tasks_for_instrument iid today now ids db).2.task_completions.drop
        db.task_completions.length).map (fun r => r.task_occurrence_id) =
      (db.task_occurrences.filter (dueAndPending iid today)).map (fun t => t.id) ∧
    (∀ r ∈ (complete_all_tasks_for_instrument iid today now ids db).2.task_completions.drop
        db.task_completions.length, r.completed_at = now) ∧
    (∀ t ∈ db.task_occurrences, dueAndPending iid today t = false →
      t ∈ (complete_all_tasks_for_instrument iid today now ids db).2.task_occurrences) := by
  refine ⟨?_, rfl, ?_, ?_, ?_, ?_, ?_⟩
  · simp [complete_all_tasks_for_instrument, List.countP_eq_length_filter]
  · intro o ho
    simp only [complete_all_tasks_for_instrument, List.mem_map] at ho
    obtain ⟨t, _, rfl⟩ := ho
    exact ⟨rfl, rfl⟩
  · simp [complete_all_tasks_for_instrument, completionRecsFor_length,
      List.countP_eq_length_filter]
  · simp only [complete_all_tasks_for_instrument]
    rw [List.drop_left, completionRecsFor_map_occ]
  · simp only [complete_all_tasks_for_instrument]
    rw [List.drop_left]
    intro r hr
    exact completionRecsFor_completed_at iid now ids 0 _ r hr
  · intro t ht hpred
    simp only [complete_all_tasks_for_instrument]
    have heq : (fun t => if dueAndPending iid today t then applyBatchCompletion now t else t) t = t := by
      simp [hpred]
    rw [← heq]
    exact List.mem_map_of_mem _ ht

/-- Store for the batch-complete scenario: instrument `X` has three
occurrences due on or before day 5, of which two are uncompleted. -/
def c6Store : Store :=
  ⟨[⟨"X"⟩], [],
   [⟨"oA", "d1", "X", 1, "Practice", false, none, none, none⟩,
    ⟨"oB", "d1", "X", 2, "Practice", true, some ⟨2, 0⟩, none, none⟩,
    ⟨"oC", "d1", "X", 3, "Practice", false, none, none, none⟩], [], []⟩

/-- Witness for C6: the theorem applied at the scenario store, together
with the scenario's concrete outcome (count 2, two fresh completion
rows). -/
theorem complete_all_batch_semantics_witness :
    (complete_all_tasks_for_instrument "X" 5 ⟨5, 0⟩ (fun _ => "r") c6Store).1.1 = 2 ∧
    (complete_all_tasks_for_instrument "X" 5 ⟨5, 0⟩ (fun _ => "r")
      c6Store).2.task_completions.length = 2 ∧
    ((complete_all_tasks_for_instrument "X" 5 ⟨5, 0⟩ (fun _ => "r") c6Store).1.1 =
      c6Store.task_occurrences.countP (dueAndPending "X" 5) ∧
    (complete_all_tasks_for_instrument "X" 5 ⟨5, 0⟩ (fun _ => "r") c6Store).1.2 =
      (c6Store.task_occurrences.filter (dueAndPending "X" 5)).map (applyBatchCompletion ⟨5, 0⟩) ∧
    (∀ o ∈ (complete_all_tasks_for_instrument "X" 5 ⟨5, 0⟩ (fun _ => "r") c6Store).1.2,
      o.completed = true ∧ o.completed_at = some ⟨5, 0⟩) ∧
    (complete_all_tasks_for_instrument "X" 5 ⟨5, 0⟩ (fun _ => "r")
        c6Store).2.task_completions.length =
      c6Store.task_completions.length +
        (complete_all_tasks_for_instrument "X" 5 ⟨5, 0⟩ (fun _ => "r") c6Store).1.1 ∧
    ((complete_all_tasks_for_instrument "X" 5 ⟨5, 0⟩ (fun _ => "r")
        c6Store).2.task_completions.drop c6Store.task_completions.length).map
        (fun r => r.task_occurrence_id) =
      (c6Store.task_occurrences.filter (dueAndPending "X" 5)).map (fun t => t.id) ∧
    (∀ r ∈ (complete_all_tasks_for_instrument "X" 5 ⟨5, 0⟩ (fun _ => "r")
        c6Store).2.task_completions.drop c6Store.task_completions.length,
      r.completed_at = ⟨5, 0⟩) ∧
    (∀ t ∈ c6Store.task_occurrences, dueAndPending "X" 5 t = false →
      t ∈ (complete_all_tasks_for_instrument "X" 5 ⟨5, 0⟩ (fun _ => "r")
        c6Store).2.task_occurrences)) :=
  ⟨by decide, by decide,
    complete_all_batch_semantics "X" 5 ⟨5, 0⟩ (fun _ => "r") c6Store⟩

/-- **C10.** When no occurrence of the given instrument id is both due
and pending — in particular when the id matches no instrument at all —
batch completion does not fail: it returns count 0 with an empty list
and leaves the store exactly as it was. -/
theorem complete_all_no_pending_is_noop (iid : String) (today : Int) (now : DateTime)
    (ids : Nat → String) (db : Store)
    (h : db.task_occurrences.countP (dueAndPending iid today) = 0) :
    complete_all_tasks_for_instrument iid today now ids db = ((0, []), db) := by
  have hall := List.countP_eq_zero.mp h
  have hfil : db.task_occurrences.filter (dueAndPending iid today) = [] :=
    List.filter_eq_nil_iff.mpr hall
  have hmap : db.task_occurrences.map
      (fun t => if dueAndPending iid today t then applyBatchCompletion now t else t) =
      db.task_occurrences := by
    have : db.task_occurrences.map
        (fun t => if dueAndPending iid today t then applyBatchCompletion now t else t) =
        db.task_occurrences.map id := by
      apply List.map_congr_left
      intro t ht
      simp [hall t ht]
    rw [this, List.map_id]
  simp only [complete_all_tasks_for_instrument, hfil, hmap]
  simp [completionRecsFor]

/-- Store whose only occurrence belongs to instrument `A`. -/
def c10Store : Store :=
  ⟨[], [], [⟨"o1", "d1", "A", 0, "Practice", false, none, none, none⟩], [], []⟩

/-- Witness for C10: batch-completing for the non-existent instrument
`B` returns count 0 and leaves the store untouched. -/
theorem complete_all_no_pending_is_noop_witness :
    (c10Store.task_occurrences.countP (dueAndPending "B" 5) = 0) ∧
    complete_all_tasks_for_instrument "B" 5 ⟨5, 0⟩ (fun _ => "r") c10Store =
      ((0, []), c10Store) :=
  ⟨by decide,
    complete_all_no_pending_is_noop "B" 5 ⟨5, 0⟩ (fun _ => "r") c10Store (by decide)⟩

/-- **C7.** `get_completion_rate` counts exactly the occurrences with
`due_date ≥ today − 7` (weekly) resp. `today − 30` (monthly), with no
upper bound on `due_date` — in particular every occurrence due today or
later passes the window filter; it reports
`completed/total × 100` rounded to two decimals together with both
counts, and with no matching occurrence it reports rate 0, total 0,
completed 0 without any error path (the function is total). -/
theorem completion_rate_window_formula (period : String) (today : Int) (db : Store)
    (_hp : period = "weekly" ∨ period = "monthly") :
    (get_completion_rate period today db).total =
      db.task_occurrences.countP
        (fun t => decide (today - (if period = "weekly" then 7 else 30) ≤ t.due_date)) ∧
    (get_completion_rate period today db).completed =
      db.task_occurrences.countP
        (fun t => t.completed &&
          decide (today - (if period = "weekly" then 7 else 30) ≤ t.due_date)) ∧
    (∀ t ∈ db.task_occurrences, today ≤ t.due_date →
      decide (today - (if period = "weekly" then 7 else 30) ≤ t.due_date) = true) ∧
    ((get_completion_rate period today db).total ≠ 0 →
      (get_completion_rate period today db).completion_rate =
        round2 (((get_completion_rate period today db).completed : ℚ) /
          ((get_completion_rate period today db).total : ℚ) * 100)) ∧
    ((get_completion_rate period today db).total = 0 →
      (get_completion_rate period today db).completion_rate = 0 ∧
      (get_completion_rate period today db).completed = 0) := by
  have hw : (if period = "weekly" then today - 7 else today - 30) =
      today - (if period = "weekly" then 7 else 30) := by
    split_ifs <;> ring
  refine ⟨?_, ?_, ?_, ?_, ?_⟩
  · simp only [get_completion_rate, hw]
    rw [List.countP_eq_length_filter]
  · simp only [get_completion_rate, hw]
    rw [List.countP_eq_length_filter, List.filter_filter]
  · intro t _ ht
    have : (0 : Int) ≤ (if period = "weekly" then 7 else 30) := by split_ifs <;> omega
    simp only [decide_eq_true_eq]
    omega
  · intro htot
    simp only [get_completion_rate] at htot ⊢
    rw [if_pos (by simpa using htot)]
  · intro htot
    simp only [get_completion_rate] at htot ⊢
    have hcle : ((db.task_occurrences.filter
        (fun t => decide ((if period = "weekly" then today - 7 else today - 30) ≤ t.due_date))).filter
          (fun t => t.completed)).length = 0 := by
      have := List.length_filter_le (fun t : Occurrence => t.completed)
        (db.task_occurrences.filter
          (fun t => decide ((if period = "weekly" then today - 7 else today - 30) ≤ t.due_date)))
      omega
    refine ⟨?_, hcle⟩
    rw [if_neg (by simp [htot])]
    show round2 0 = 0
    norm_num [round2, roundHalfEven]

/-- Store for the completion-rate scenario: one completed occurrence due
day 0 and one pending occurrence due in the future (day 10). -/
def c7Store : Store :=
  ⟨[], [],
   [⟨"o1", "d1", "i1", 0, "Practice", true, some ⟨0, 0⟩, none, none⟩,
    ⟨"o2", "d1", "i1", 10, "Practice", false, none, none, none⟩], [], []⟩

/-- Witness for C7: the theorem applied at `c7Store` with period
`weekly` and today = 0, together with the concrete outcome (the
future-dated occurrence is counted; 1 of 2 completed gives rate 50) and
the zero-occurrence outcome on the empty store. -/
theorem completion_rate_window_formula_witness :
    (get_completion_rate "weekly" 0 c7Store).total = 2 ∧
    (get_completion_rate "weekly" 0 c7Store).completed = 1 ∧
    (get_completion_rate "weekly" 0 c7Store).completion_rate = 50 ∧
    (get_completion_rate "weekly" 0 emptyStore).completion_rate = 0 ∧
    (get_completion_rate "weekly" 0 emptyStore).total = 0 ∧
    (get_completion_rate "weekly" 0 emptyStore).completed = 0 ∧
    (("weekly" : String) = "weekly" ∨ ("weekly" : String) = "monthly") ∧
    ((get_completion_rate "weekly" 0 c7Store).total =
      c7Store.task_occurrences.countP
        (fun t => decide ((0 : Int) - (if ("weekly" : String) = "weekly" then 7 else 30) ≤ t.due_date)) ∧
    (get_completion_rate "weekly" 0 c7Store).completed =
      c7Store.task_occurrences.countP
        (fun t => t.completed &&
          decide ((0 : Int) - (if ("weekly" : String) = "weekly" then 7 else 30) ≤ t.due_date)) ∧
    (∀ t ∈ c7Store.task_occurrences, (0 : Int) ≤ t.due_date →
      decide ((0 : Int) - (if ("weekly" : String) = "weekly" then 7 else 30) ≤ t.due_date) = true) ∧
    ((get_completion_rate "weekly" 0 c7Store).total ≠ 0 →
      (get_completion_rate "weekly" 0 c7Store).completion_rate =
        round2 (((get_completion_rate "weekly" 0 c7Store).completed : ℚ) /
          ((get_completion_rate "weekly" 0 c7Store).total : ℚ) * 100)) ∧
    ((get_completion_rate "weekly" 0 c7Store).total = 0 →
      (get_completion_rate "weekly" 0 c7Store).completion_rate = 0 ∧
      (get_completion_rate "weekly" 0 c7Store).completed = 0)) :=
  ⟨by decide, by decide,
    by norm_num [get_completion_rate, c7Store, round2, roundHalfEven, Int.fdiv],
    by norm_num [get_completion_rate, emptyStore, round2, roundHalfEven],
    by decide, by decide, Or.inl rfl,
    completion_rate_window_formula "weekly" 0 c7Store (Or.inl rfl)⟩

lemma rescheduledSession_fields (newDue : Int) (now : DateTime) (s : PracticeSession) :
    (rescheduledSession newDue now s).id = s.id ∧
    taskViewDueDate (rescheduledSession newDue now s) = some newDue := by
  rcases s with ⟨sid, iid, pid, st, et, du, c, ca, n, p, u⟩
  cases st with
  | none => simp [rescheduledSession, taskViewDueDate]
  | some oldStart =>
      cases et with
      | none => simp [rescheduledSession, taskViewDueDate]
      | some oldEnd =>
          cases du with
          | none => simp [rescheduledSession, taskViewDueDate]
          | some d => simp [rescheduledSession, taskViewDueDate]

/-- **C8.** Rescheduling an existing session to a parsed date D succeeds
and the re-fetched `due_date` (the date part of `start_time`, as the
listing endpoint reports it) equals D exactly, independent of the
generating rule; rescheduling a non-existent session fails with
NotFound; an unparseable date on an existing session fails with the
invalid-date error. -/
theorem reschedule_roundtrip_exact (tid : String) (D : Int) (now : DateTime) (db : Store)
    (badStr : String) :
    (∀ s, db.practice_sessions.find? (fun x => x.id == tid) = some s →
      ∃ s1 db1,
        reschedule_task tid (DateField.parsed D) now db = Except.ok (s1, db1) ∧
        taskViewDueDate s1 = some D ∧
        (db1.practice_sessions.find? (fun x => x.id == tid)).map taskViewDueDate =
          some (some D)) ∧
    (db.practice_sessions.find? (fun x => x.id == tid) = none →
      reschedule_task tid (DateField.parsed D) now db =
        Except.error (ApiError.notFound "Practice session not found")) ∧
    (∀ s, db.practice_sessions.find? (fun x => x.id == tid) = some s →
      reschedule_task tid (DateField.unparseable badStr) now db =
        Except.error (ApiError.invalidDate ("Invalid date format: " ++ badStr))) := by
  refine ⟨?_, ?_, ?_⟩
  · intro s h
    have hps := List.find?_some h
    have hid : ((rescheduledSession D now s).id == tid) = true := by
      rw [(rescheduledSession_fields D now s).1]
      exact hps
    have e1 : reschedule_task tid (DateField.parsed D) now db =
        Except.ok (rescheduledSession D now s,
          { db with practice_sessions := (db.practice_sessions.map (fun x => if x.id == tid then rescheduledSession D now s else x)) }) := by
      unfold reschedule_task
      rw [h]
    refine ⟨rescheduledSession D now s, _, e1, (rescheduledSession_fields D now s).2, ?_⟩
    have f1 : (db.practice_sessions.map
        (fun x => if x.id == tid then rescheduledSession D now s else x)).find?
          (fun x => x.id == tid) = some (rescheduledSession D now s) :=
      find?_map_replace (fun x => x.id == tid) (rescheduledSession D now s) hid _ _ h
    rw [show ({ db with practice_sessions := (db.practice_sessions.map (fun x => if x.id == tid then rescheduledSession D now s else x)) } : Store).practice_sessions =
        (db.practice_sessions.map (fun x => if x.id == tid then rescheduledSession D now s else x)) from rfl]
    rw [f1, Option.map_some', (rescheduledSession_fields D now s).2]
  · intro h
    unfold reschedule_task
    rw [h]
  · intro s h
    unfold reschedule_task
    rw [h]

/-- Session used by the reschedule scenario: starts on day 10 with a
time of day, has an end time and a duration. -/
def c8Session : PracticeSession :=
  ⟨"s1", "i1", "pd1", some ⟨10, 5⟩, some ⟨10, 6⟩, some 3600, false, none, none, none, ⟨0, 0⟩⟩

/-- Store holding just `c8Session`. -/
def c8Store : Store := ⟨[], [], [], [], [c8Session]⟩

/-- Witness for C8: rescheduling `c8Session` to day 7. -/
theorem reschedule_roundtrip_exact_witness :
    (c8Store.practice_sessions.find? (fun x => x.id == "s1") = some c8Session) ∧
    (∃ s1 db1,
      reschedule_task "s1" (DateField.parsed 7) ⟨1, 1⟩ c8Store = Except.ok (s1, db1) ∧
      taskViewDueDate s1 = some 7 ∧
      (db1.practice_sessions.find? (fun x => x.id == "s1")).map taskViewDueDate =
        some (some 7)) ∧
    (reschedule_task "s1" (DateField.unparseable "not-a-date") ⟨1, 1⟩ c8Store =
      Except.error (ApiError.invalidDate ("Invalid date format: " ++ "not-a-date"))) :=
  ⟨rfl,
    (reschedule_roundtrip_exact "s1" 7 ⟨1, 1⟩ c8Store "not-a-date").1 c8Session rfl,
    (reschedule_roundtrip_exact "s1" 7 ⟨1, 1⟩ c8Store "not-a-date").2.2 c8Session rfl⟩

/-- Definition used by the delete scenarios. -/
def c9Def : TaskDef :=
  { id := "d1", instrument_id := "i1", task_type := "Practice"
    frequency_type := "days", frequency_value := 1, start_date := 0 }

/-- The claim's non-vacuous delete scenario: definition `d1` owns the
completed occurrence `o1`, which completion row `c1` references;
occurrence `o2` belongs to another definition. -/
def c9Store : Store :=
  ⟨[⟨"i1"⟩], [c9Def],
   [⟨"o1", "d1", "i1", 0, "Practice", true, some ⟨0, 0⟩, none, none⟩,
    ⟨"o2", "dX", "i1", 1, "Practice", false, none, none, none⟩],
   [⟨"c1", "o1", "i1", "Practice", ⟨0, 0⟩, none, none⟩], []⟩

/-- Delete scenario without a blocking reference: `d1` owns the pending
occurrence `o1`; the only completion row references `o2`, an occurrence
of another definition. -/
def c9CleanStore : Store :=
  ⟨[⟨"i1"⟩], [c9Def],
   [⟨"o1", "d1", "i1", 0, "Practice", false, none, none, none⟩,
    ⟨"o2", "dX", "i1", 1, "Practice", true, some ⟨0, 0⟩, none, none⟩],
   [⟨"c1", "o2", "i1", "Practice", ⟨0, 0⟩, none, none⟩], []⟩

/-- **C9 (code bug).** On `c9Store` — a definition whose cascaded
occurrence is referenced by a completion row, the exact situation the
claim is about — the delete does not cascade: the FK check rejects the
occurrence DELETE, the handler surfaces an uncaught `IntegrityError`
(500) and nothing is deleted, where the claim (and the cascade comment
in the handler itself) promises success with the occurrences removed
and the completions kept.  The promised behaviour occurs only when no
completion references any cascaded occurrence (`c9CleanStore`: the
definition and its occurrence go, the foreign completion row and
everything else stay); a missing definition gives NotFound. -/
theorem delete_definition_blocked_by_completion_reference :
    delete_task_definition "d1" c9Store = Except.error ApiError.internal ∧
    delete_task_definition "d1" c9CleanStore = Except.ok ("d1",
      ⟨[⟨"i1"⟩], [],
       [⟨"o2", "dX", "i1", 1, "Practice", true, some ⟨0, 0⟩, none, none⟩],
       [⟨"c1", "o2", "i1", "Practice", ⟨0, 0⟩, none, none⟩], []⟩) ∧
    delete_task_definition "dZ" c9Store =
      Except.error (ApiError.notFound "Task definition not found") :=
  ⟨rfl, rfl, rfl⟩
